import Mathlib

/-!
Verification of the frontend load-generator client of the k8s sample app.

Two variants exist in the repository:
* the richer dashboard variant (GET `/app/sample`, pending log entries,
  collections capped at the last 200 entries), embedded in namespace `Dash`;
* the simpler variant (POST `/app/sample`, logs only on settlement, capped
  at the last 50 entries), embedded in namespace `PostApp`.

JavaScript numbers used only as counters and millisecond latencies are
modelled as `Nat`; the ones that flow into `toFixed(2)` are modelled as `ℚ`.
`crypto.randomUUID()` is modelled by a fresh-id counter carried in the state.
Wall-clock values (`performance.now()`, `new Date().toLocaleTimeString()`)
are inputs of each step, as is the outcome of the `fetch` call.
-/

set_option maxRecDepth 8000

/-- `Array.prototype.slice(-n)` on a JS array: the suffix of the last `n`
elements (the whole list when its length is at most `n`). -/
def sliceLast (n : Nat) (xs : List α) : List α :=
  xs.drop (xs.length - n)

/-- `Response.ok`: true exactly when the HTTP status is in the 200–299 range. -/
def resOk (status : Nat) : Bool :=
  200 ≤ status && status ≤ 299

namespace Dash

/-- `type Stat` of the dashboard variant (`totalLatency` included). -/
structure Stat where
  total : Nat
  success : Nat
  error : Nat
  totalLatency : Nat
  deriving Repr, DecidableEq

/-- The three values of `Log.status` in the dashboard variant. -/
inductive LogStatus where
  | pending
  | success
  | error
  deriving Repr, DecidableEq

/-- `type Log` of the dashboard variant; `statusCode` and `latency` are the
optional fields (`statusCode?: number`, `latency?: number`). -/
structure Log where
  id : Nat
  timestamp : String
  startTime : Nat
  status : LogStatus
  statusCode : Option Nat
  message : String
  latency : Option Nat
  deriving Repr, DecidableEq

/-- `type ChartData = { time: string; latency: number }`. -/
structure ChartData where
  time : String
  latency : Nat
  deriving Repr, DecidableEq

/-- The component state held in React hooks, plus the fresh-id counter that
models `crypto.randomUUID()` returning a value never seen before. -/
structure AppState where
  intervalMs : Nat
  isRunning : Bool
  stats : Stat
  logs : List Log
  chartData : List ChartData
  nextId : Nat
  deriving Repr, DecidableEq

/-- The initial hook values: interval 1000 ms, not running, zero stats,
empty collections. -/
def initialState : AppState :=
  { intervalMs := 1000
    isRunning := false
    stats := { total := 0, success := 0, error := 0, totalLatency := 0 }
    logs := []
    chartData := []
    nextId := 0 }

/-- Outcome of the `fetch("/app/sample", { method: "GET" })` call: either a
response carrying an HTTP status (and status text), or a thrown/rejected
error carrying `some message` when `error instanceof Error`, else `none`. -/
inductive FetchResult where
  | response (status : Nat) (statusText : String)
  | exception (msg : Option String)
  deriving Repr, DecidableEq

/-- The pending `Log` pushed at the top of `sendRequest` before the fetch. -/
def pendingLog (requestId : Nat) (timestamp : String) (startTime : Nat) : Log :=
  { id := requestId
    timestamp := timestamp
    startTime := startTime
    status := .pending
    statusCode := none
    message := "Pending..."
    latency := none }

/-- First half of `sendRequest` (up to and including the pending-log append):
generates the fresh request id and appends the pending entry, keeping the
last 200 logs.  Returns the new state; the fresh id is `s.nextId`. -/
def sendRequestDispatch (s : AppState) (timestamp : String) (startTime : Nat) :
    AppState :=
  { s with
    logs := sliceLast 200 (s.logs ++ [pendingLog s.nextId timestamp startTime])
    nextId := s.nextId + 1 }

/-- The per-entry update applied by `setLogs((prev) => prev.map(...))` when the
request `requestId` settles with `result` and measured `latency`. -/
def settleLog (requestId : Nat) (result : FetchResult) (latency : Nat)
    (log : Log) : Log :=
  if log.id = requestId then
    match result with
    | .response status statusText =>
        if resOk status then
          { log with
            status := .success
            statusCode := some status
            message := "Success"
            latency := some latency }
        else
          { log with
            status := .error
            statusCode := some status
            message := "Status: " ++ toString status ++ " " ++ statusText
            latency := some latency }
    | .exception msg =>
        { log with
          status := .error
          statusCode := some 0
          message := msg.getD "Network Error"
          latency := some latency }
  else log

/-- The terminal classification of a settlement, as decided by `sendRequest`:
a response is `success` exactly when `res.ok`, otherwise `error`; a thrown
or rejected fetch is always `error`. -/
def classify : FetchResult → LogStatus
  | .response status _ => if resOk status then .success else .error
  | .exception _ => .error

/-- 1 when a settlement is classified as a success, else 0. -/
def successInd (result : FetchResult) : Nat :=
  if classify result = .success then 1 else 0

/-- The stats update applied when a request settles: `total` always bumps,
`success` or `error` bumps by the classification, latency accumulates. -/
def bumpStats (st : Stat) (result : FetchResult) (latency : Nat) : Stat :=
  match result with
  | .response status _ =>
      if resOk status then
        { st with
          total := st.total + 1
          success := st.success + 1
          totalLatency := st.totalLatency + latency }
      else
        { st with
          total := st.total + 1
          error := st.error + 1
          totalLatency := st.totalLatency + latency }
  | .exception _ =>
      { st with
        total := st.total + 1
        error := st.error + 1
        totalLatency := st.totalLatency + latency }

/-- Second half of `sendRequest`: the settlement of request `requestId`.
On a response (the `try` branch after `fetch` returns) the chart gains a
point and the stats and matching log are updated by `res.ok`; on an
exception (the `catch` branch) stats and the matching log are updated as an
error and the chart is untouched. -/
def sendRequestSettle (s : AppState) (requestId : Nat) (timestamp : String)
    (result : FetchResult) (latency : Nat) : AppState :=
  match result with
  | .response status statusText =>
      { s with
        chartData :=
          sliceLast 200 (s.chartData ++ [{ time := timestamp, latency := latency }])
        stats := bumpStats s.stats (.response status statusText) latency
        logs := s.logs.map (settleLog requestId (.response status statusText) latency) }
  | .exception msg =>
      { s with
        stats := bumpStats s.stats (.exception msg) latency
        logs := s.logs.map (settleLog requestId (.exception msg) latency) }

/-- `resetStats` as written in the source: zero the stats, clear logs and
chart.  (Reachability of the call is a separate, interface-level question.) -/
def resetStats (s : AppState) : AppState :=
  { s with
    stats := { total := 0, success := 0, error := 0, totalLatency := 0 }
    logs := []
    chartData := [] }

/-- A click on the Reset button.  The button carries `disabled={isRunning}`,
so while running the click event never reaches `resetStats`. -/
def resetClick (s : AppState) : AppState :=
  if s.isRunning then s else resetStats s

/-- An edit of the interval input.  The input carries `disabled={isRunning}`,
so no change event fires while running; otherwise
`setIntervalMs(parseInt(e.target.value) || 100)` runs, where a failed parse
(`NaN`, modelled `none`) and a parsed `0` are both falsy and fall back to
100. -/
def intervalInput (s : AppState) (parsed : Option Nat) : AppState :=
  if s.isRunning then s
  else
    { s with
      intervalMs :=
        match parsed with
        | none => 100
        | some 0 => 100
        | some n => n }

/-- One observable event of the component. -/
inductive Step where
  | dispatch (timestamp : String) (startTime : Nat)
  | settle (requestId : Nat) (timestamp : String) (result : FetchResult)
      (latency : Nat)
  deriving Repr

/-- Apply one event to the state. -/
def step (s : AppState) : Step → AppState
  | .dispatch ts startT => sendRequestDispatch s ts startT
  | .settle rid ts result lat => sendRequestSettle s rid ts result lat

/-- Run a sequence of events. -/
def run (s : AppState) (steps : List Step) : AppState :=
  steps.foldl step s

/-- Three requests dispatched in order 0, 1, 2 from the initial state, whose
settlements then arrive in the order given by `order` (each settlement
carries its own request's fetch outcome and latency, and the timestamp
captured at its dispatch). -/
def threeRun (ts : Nat → String) (startT : Nat → Nat) (r : Nat → FetchResult)
    (lat : Nat → Nat) (order : List Nat) : AppState :=
  run initialState
    ([Step.dispatch (ts 0) (startT 0), Step.dispatch (ts 1) (startT 1),
      Step.dispatch (ts 2) (startT 2)] ++
     order.map (fun k => Step.settle k (ts k) (r k) (lat k)))

end Dash

namespace PostApp

/-- `type Stat` of the simpler variant (no latency accumulator). -/
structure Stat where
  total : Nat
  success : Nat
  error : Nat
  deriving Repr, DecidableEq

/-- The two values of `Log.status` in the simpler variant. -/
inductive LogStatus where
  | success
  | error
  deriving Repr, DecidableEq

/-- `type Log` of the simpler variant: every field mandatory, no pending. -/
structure Log where
  id : Nat
  timestamp : String
  status : LogStatus
  message : String
  latency : Nat
  deriving Repr, DecidableEq

/-- Component state of the simpler variant (interval kept in seconds as in
the source; the fresh-id counter models `crypto.randomUUID()` in `addLog`). -/
structure AppState where
  intervalSec : Nat
  isRunning : Bool
  stats : Stat
  logs : List Log
  nextId : Nat
  deriving Repr, DecidableEq

/-- Initial hook values of the simpler variant. -/
def initialState : AppState :=
  { intervalSec := 1
    isRunning := false
    stats := { total := 0, success := 0, error := 0 }
    logs := []
    nextId := 0 }

/-- Outcome of the POST `fetch` in the simpler variant.  A `response` carries
the HTTP status and status text together with the result of `res.json()`
(consulted only when `res.ok`): `.ok dataId` when the body parses and its
`id` field reads `dataId`, `.error msg` when parsing throws (with
`some message` when the thrown value is an `Error`).  An `exception` is a
rejection of the `fetch` itself. -/
inductive FetchResult where
  | response (status : Nat) (statusText : String)
      (jsonBody : Except (Option String) String)
  | exception (msg : Option String)

/-- `addLog`: build the entry with a fresh id and timestamp, append, keep the
last 50. -/
def addLog (s : AppState) (timestamp : String) (status : LogStatus)
    (message : String) (latency : Nat) : AppState :=
  { s with
    logs := sliceLast 50 (s.logs ++
      [{ id := s.nextId
         timestamp := timestamp
         status := status
         message := message
         latency := latency }])
    nextId := s.nextId + 1 }

/-- One whole `sendRequest` of the simpler variant (it logs only at
settlement).  `latency` is the value measured when the response arrives;
`catchLatency` the one re-measured inside the `catch` block (they may
differ, the `catch` runs later).  A parse failure of the body of an ok
response jumps to the `catch` block before any success bookkeeping. -/
def sendRequest (s : AppState) (result : FetchResult) (latency : Nat)
    (catchLatency : Nat) (timestamp : String) : AppState :=
  match result with
  | .response status statusText jsonBody =>
      if resOk status then
        match jsonBody with
        | .ok dataId =>
            let s :=
              { s with
                stats :=
                  { s.stats with
                    total := s.stats.total + 1
                    success := s.stats.success + 1 } }
            addLog s timestamp .success
              ("ID: " ++ dataId ++ " - Created successfully") latency
        | .error msg =>
            let s :=
              { s with
                stats :=
                  { s.stats with
                    total := s.stats.total + 1
                    error := s.stats.error + 1 } }
            addLog s timestamp .error (msg.getD "Network Error") catchLatency
      else
        let s :=
          { s with
            stats :=
              { s.stats with
                total := s.stats.total + 1
                error := s.stats.error + 1 } }
        addLog s timestamp .error
          ("Status: " ++ toString status ++ " " ++ statusText) latency
  | .exception msg =>
      let s :=
        { s with
          stats :=
            { s.stats with
              total := s.stats.total + 1
              error := s.stats.error + 1 } }
      addLog s timestamp .error (msg.getD "Network Error") catchLatency

/-- One settlement event of the simpler variant. -/
structure Event where
  result : FetchResult
  latency : Nat
  catchLatency : Nat
  timestamp : String

/-- Run a sequence of settlements. -/
def run (s : AppState) (events : List Event) : AppState :=
  events.foldl
    (fun s e => sendRequest s e.result e.latency e.catchLatency e.timestamp) s

end PostApp

/-- `Number.prototype.toFixed(2)` on a non-negative value, with the exact
arithmetic done in ℚ: the integer `n` for which `n / 100` is nearest to the
value, ties to the larger `n` (ECMA-262 Number.prototype.toFixed), printed
as the integer part, a point, and exactly the two decimal digits of
`n % 100`. -/
def toFixed2 (q : ℚ) : String :=
  let n : Nat := (⌊q * 100 + 1 / 2⌋).toNat
  toString (n / 100) ++ "." ++
    String.mk [Char.ofNat (48 + n / 10 % 10), Char.ofNat (48 + n % 10)]

/-- Round to the nearest integer, ties to even (the IEEE-754 default
rounding used by every JavaScript arithmetic operation). -/
def roundTiesEven (x : ℚ) : ℤ :=
  if x - ⌊x⌋ < 1 / 2 then ⌊x⌋
  else if 1 / 2 < x - ⌊x⌋ then ⌊x⌋ + 1
  else if ⌊x⌋ % 2 = 0 then ⌊x⌋ else ⌊x⌋ + 1

/-- The exact value of the IEEE-754 binary64 (double) nearest to a
non-negative rational: the significand is rounded to 53 bits (ties to even)
at the binade fixed by `Int.log 2`.  All quantities arising in the metrics
are zero or lie far inside the normal range, so normal-range rounding is
the whole story; non-positive input (only 0 arises) maps to 0. -/
def roundFloat (q : ℚ) : ℚ :=
  if q ≤ 0 then 0
  else
    (roundTiesEven (q * 2 ^ ((52 : ℤ) - Int.log 2 q)) : ℚ) *
      2 ^ (Int.log 2 q - (52 : ℤ))

/-- `errorRate` of the dashboard variant:
`stats.total > 0 ? ((stats.error / stats.total) * 100).toFixed(2) : "0.00"`.
The counters are doubles holding exact integers; the division and the
multiplication by 100 are each evaluated in binary64 (correctly rounded),
then `toFixed(2)` formats the exact value of the resulting double. -/
def Dash.errorRate (st : Dash.Stat) : String :=
  if st.total > 0 then
    toFixed2 (roundFloat (roundFloat ((st.error : ℚ) / (st.total : ℚ)) * 100))
  else "0.00"

/-- `avgLatency` of the dashboard variant:
`stats.total > 0 ? (stats.totalLatency / stats.total).toFixed(2) : "0.00"`,
the single division evaluated in binary64. -/
def Dash.avgLatency (st : Dash.Stat) : String :=
  if st.total > 0 then
    toFixed2 (roundFloat ((st.totalLatency : ℚ) / (st.total : ℚ)))
  else "0.00"

/-- `errorRate` of the simpler variant (same double-precision formula, its
own `Stat`). -/
def PostApp.errorRate (st : PostApp.Stat) : String :=
  if st.total > 0 then
    toFixed2 (roundFloat (roundFloat ((st.error : ℚ) / (st.total : ℚ)) * 100))
  else "0.00"

example :
    (Dash.run Dash.initialState
      [.dispatch "t0" 5,
       .settle 0 "t0" (.response 200 "OK") 12]).stats.success = 1 := by
  decide

/-- A string showing exactly two decimal places: some prefix, a point, and
exactly two digit characters. -/
def hasTwoDecimals (s : String) : Prop :=
  ∃ (pre : String) (d1 d2 : Char),
    s = pre ++ "." ++ String.mk [d1, d2] ∧ d1.isDigit = true ∧ d2.isDigit = true

example : toFixed2 (3 / 2) = "1.50" := by
  have h : (⌊(3 / 2 : ℚ) * 100 + 1 / 2⌋ : ℤ) = 150 := by
    rw [Int.floor_eq_iff] ; norm_num
  simp only [toFixed2, h]
  rfl

example :
    (Dash.run Dash.initialState
      [.dispatch "t0" 5,
       .settle 0 "t0" (.exception (some "boom")) 12]).chartData = [] := by
  decide

/-! ### Basic lemmas about the rolling-window operation -/

theorem sliceLast_length (n : Nat) (xs : List α) :
    (sliceLast n xs).length = min n xs.length := by
  simp [sliceLast]
  omega

theorem sliceLast_length_le (n : Nat) (xs : List α) :
    (sliceLast n xs).length ≤ n := by
  rw [sliceLast_length]
  omega

theorem sliceLast_of_length_le {n : Nat} {xs : List α} (h : xs.length ≤ n) :
    sliceLast n xs = xs := by
  unfold sliceLast
  rw [Nat.sub_eq_zero_of_le h, List.drop_zero]

theorem sliceLast_suffix (n : Nat) (xs : List α) :
    List.IsSuffix (sliceLast n xs) xs :=
  List.drop_suffix _ _

theorem sliceLast_concat_getLast? {n : Nat} (hn : 1 ≤ n) (xs : List α)
    (a : α) : (sliceLast n (xs ++ [a])).getLast? = some a := by
  unfold sliceLast
  rw [List.drop_append_of_le_length (by simp; omega)]
  exact List.getLast?_concat _

namespace Dash

/-! ### Shape lemmas for the dashboard variant's operations -/

theorem settleLog_id (rid : Nat) (r : FetchResult) (lat : Nat) (l : Log) :
    (settleLog rid r lat l).id = l.id := by
  rcases r with ⟨status, stx⟩ | m <;> simp only [settleLog] <;>
    split <;> try rfl
  split <;> rfl

theorem settleLog_of_ne {rid : Nat} {l : Log} (r : FetchResult) (lat : Nat)
    (h : l.id ≠ rid) : settleLog rid r lat l = l := by
  simp [settleLog, h]

theorem settleLog_status {rid : Nat} {l : Log} (r : FetchResult) (lat : Nat)
    (h : l.id = rid) : (settleLog rid r lat l).status = classify r := by
  rcases r with ⟨status, stx⟩ | m <;> simp only [settleLog, classify, h, if_true]
  split <;> rfl

theorem settleLog_latency {rid : Nat} {l : Log} (r : FetchResult) (lat : Nat)
    (h : l.id = rid) : (settleLog rid r lat l).latency = some lat := by
  rcases r with ⟨status, stx⟩ | m <;> simp only [settleLog, h, if_true]
  split <;> rfl

theorem classify_ne_pending (r : FetchResult) : classify r ≠ .pending := by
  rcases r with ⟨status, stx⟩ | m <;> simp only [classify]
  · split <;> simp
  · simp

theorem bumpStats_total (st : Stat) (r : FetchResult) (lat : Nat) :
    (bumpStats st r lat).total = st.total + 1 := by
  rcases r with ⟨status, stx⟩ | m <;> simp only [bumpStats]
  split <;> rfl

theorem bumpStats_success (st : Stat) (r : FetchResult) (lat : Nat) :
    (bumpStats st r lat).success = st.success + successInd r := by
  rcases r with ⟨status, stx⟩ | m <;>
    simp only [bumpStats, successInd, classify]
  · split <;> simp
  · simp

theorem bumpStats_error (st : Stat) (r : FetchResult) (lat : Nat) :
    (bumpStats st r lat).error = st.error + (1 - successInd r) := by
  rcases r with ⟨status, stx⟩ | m <;>
    simp only [bumpStats, successInd, classify]
  · split <;> simp
  · simp

theorem bumpStats_totalLatency (st : Stat) (r : FetchResult) (lat : Nat) :
    (bumpStats st r lat).totalLatency = st.totalLatency + lat := by
  rcases r with ⟨status, stx⟩ | m <;> simp only [bumpStats]
  split <;> rfl

theorem successInd_le_one (r : FetchResult) : successInd r ≤ 1 := by
  unfold successInd
  split <;> omega

theorem sendRequestSettle_logs (s : AppState) (rid : Nat) (ts : String)
    (r : FetchResult) (lat : Nat) :
    (sendRequestSettle s rid ts r lat).logs =
      s.logs.map (settleLog rid r lat) := by
  rcases r with ⟨status, stx⟩ | m <;> rfl

theorem sendRequestSettle_stats (s : AppState) (rid : Nat) (ts : String)
    (r : FetchResult) (lat : Nat) :
    (sendRequestSettle s rid ts r lat).stats = bumpStats s.stats r lat := by
  rcases r with ⟨status, stx⟩ | m <;> rfl

theorem sendRequestSettle_nextId (s : AppState) (rid : Nat) (ts : String)
    (r : FetchResult) (lat : Nat) :
    (sendRequestSettle s rid ts r lat).nextId = s.nextId := by
  rcases r with ⟨status, stx⟩ | m <;> rfl

theorem sendRequestDispatch_stats (s : AppState) (ts : String) (startT : Nat) :
    (sendRequestDispatch s ts startT).stats = s.stats := rfl

theorem sendRequestDispatch_chartData (s : AppState) (ts : String)
    (startT : Nat) :
    (sendRequestDispatch s ts startT).chartData = s.chartData := rfl

theorem run_nil (s : AppState) : run s [] = s := rfl

theorem run_cons (s : AppState) (e : Step) (es : List Step) :
    run s (e :: es) = run (step s e) es := rfl

theorem run_preserve {P : AppState → Prop}
    (h : ∀ s e, P s → P (step s e)) :
    ∀ (steps : List Step) (s : AppState), P s → P (run s steps) := by
  intro steps
  induction steps with
  | nil => intro s hs; exact hs
  | cons e es ih => intro s hs; exact ih (step s e) (h s e hs)

end Dash

namespace PostApp

theorem postRun_nil (s : AppState) : run s [] = s := rfl

theorem postRun_cons (s : AppState) (e : Event) (es : List Event) :
    run s (e :: es) =
      run (sendRequest s e.result e.latency e.catchLatency e.timestamp) es :=
  rfl

theorem postRun_preserve {P : AppState → Prop}
    (h : ∀ (s : AppState) (e : Event),
      P s → P (sendRequest s e.result e.latency e.catchLatency e.timestamp)) :
    ∀ (events : List Event) (s : AppState), P s → P (run s events) := by
  intro events
  induction events with
  | nil => intro s hs; exact hs
  | cons e es ih =>
      intro s hs
      exact ih _ (h s e hs)

end PostApp

namespace Dash

theorem sendRequestSettle_chartData_response (s : AppState) (rid : Nat)
    (ts : String) (status : Nat) (stx : String) (lat : Nat) :
    (sendRequestSettle s rid ts (.response status stx) lat).chartData =
      sliceLast 200 (s.chartData ++ [{ time := ts, latency := lat }]) := rfl

theorem sendRequestSettle_chartData_exception (s : AppState) (rid : Nat)
    (ts : String) (m : Option String) (lat : Nat) :
    (sendRequestSettle s rid ts (.exception m) lat).chartData =
      s.chartData := rfl

end Dash

namespace PostApp

/-- Every branch of the simpler variant's `sendRequest` bumps `total` by
one. -/
theorem sendRequest_total (s : AppState) (r : FetchResult) (lat latC : Nat)
    (ts : String) :
    (sendRequest s r lat latC ts).stats.total = s.stats.total + 1 := by
  rcases r with ⟨status, stx, body⟩ | m <;> simp only [sendRequest, addLog]
  split
  · rcases body with dataId | e <;> rfl
  · rfl

/-- Every branch of the simpler variant's `sendRequest` preserves
`total = success + error`. -/
theorem sendRequest_statInv (s : AppState) (r : FetchResult) (lat latC : Nat)
    (ts : String) (h : s.stats.total = s.stats.success + s.stats.error) :
    (sendRequest s r lat latC ts).stats.total =
      (sendRequest s r lat latC ts).stats.success +
        (sendRequest s r lat latC ts).stats.error := by
  rcases r with ⟨status, stx, body⟩ | m <;> simp only [sendRequest, addLog]
  · split
    · rcases body with dataId | e <;> (try dsimp only) <;> omega
    · try dsimp only
      omega
  · try dsimp only
    omega

/-- The simpler variant's `sendRequest` appends exactly one entry, keeping
the last 50. -/
theorem sendRequest_logs_shape (s : AppState) (r : FetchResult)
    (lat latC : Nat) (ts : String) :
    ∃ e : Log, (sendRequest s r lat latC ts).logs =
      sliceLast 50 (s.logs ++ [e]) := by
  rcases r with ⟨status, stx, body⟩ | m <;> simp only [sendRequest, addLog]
  · split
    · rcases body with dataId | e <;> exact ⟨_, rfl⟩
    · exact ⟨_, rfl⟩
  · exact ⟨_, rfl⟩

end PostApp

/-! ### The claims -/

/-- **C1**: along every sequence of events of either variant, after each
settlement the aggregate counters satisfy `total = success + error`
(starting from the initial all-zero stats), and a dispatch (a pending,
unsettled request) leaves all counters untouched. -/
theorem total_eq_success_add_error :
    (∀ steps : List Dash.Step,
      (Dash.run Dash.initialState steps).stats.total =
        (Dash.run Dash.initialState steps).stats.success +
          (Dash.run Dash.initialState steps).stats.error) ∧
    (∀ (s : Dash.AppState) (ts : String) (startT : Nat),
      (Dash.sendRequestDispatch s ts startT).stats = s.stats) ∧
    (∀ events : List PostApp.Event,
      (PostApp.run PostApp.initialState events).stats.total =
        (PostApp.run PostApp.initialState events).stats.success +
          (PostApp.run PostApp.initialState events).stats.error) := by
  refine ⟨?_, fun s ts startT => rfl, ?_⟩
  · intro steps
    refine Dash.run_preserve
      (P := fun s => s.stats.total = s.stats.success + s.stats.error)
      ?_ steps Dash.initialState rfl
    intro s e hs
    cases e with
    | dispatch ts startT => exact hs
    | settle rid ts r lat =>
        show (Dash.sendRequestSettle s rid ts r lat).stats.total =
          (Dash.sendRequestSettle s rid ts r lat).stats.success +
            (Dash.sendRequestSettle s rid ts r lat).stats.error
        rw [Dash.sendRequestSettle_stats, Dash.bumpStats_total,
          Dash.bumpStats_success, Dash.bumpStats_error]
        have := Dash.successInd_le_one r
        omega
  · intro events
    refine PostApp.postRun_preserve
      (P := fun s => s.stats.total = s.stats.success + s.stats.error)
      ?_ events PostApp.initialState rfl
    intro s e hs
    exact PostApp.sendRequest_statInv s e.result e.latency e.catchLatency
      e.timestamp hs

/-- **C3**: the log and chart collections of the dashboard variant never
exceed 200 entries, the log collection of the simpler variant never exceeds
50 entries, and the rolling-window operation keeps a suffix of the appended
list (the oldest entries are discarded from the front, the rest keep their
order) of length `min cap (length + 1)`. -/
theorem collections_never_exceed_cap :
    (∀ steps : List Dash.Step,
      (Dash.run Dash.initialState steps).logs.length ≤ 200 ∧
      (Dash.run Dash.initialState steps).chartData.length ≤ 200) ∧
    (∀ events : List PostApp.Event,
      (PostApp.run PostApp.initialState events).logs.length ≤ 50) ∧
    (∀ (α : Type) (xs : List α) (a : α) (n : Nat),
      (sliceLast n (xs ++ [a])).length = min n (xs.length + 1) ∧
      List.IsSuffix (sliceLast n (xs ++ [a])) (xs ++ [a])) := by
  refine ⟨?_, ?_, ?_⟩
  · intro steps
    refine Dash.run_preserve
      (P := fun s => s.logs.length ≤ 200 ∧ s.chartData.length ≤ 200)
      ?_ steps Dash.initialState (by exact ⟨by simp [Dash.initialState],
        by simp [Dash.initialState]⟩)
    intro s e hs
    cases e with
    | dispatch ts startT =>
        exact ⟨sliceLast_length_le _ _, hs.2⟩
    | settle rid ts r lat =>
        constructor
        · show (Dash.sendRequestSettle s rid ts r lat).logs.length ≤ 200
          rw [Dash.sendRequestSettle_logs, List.length_map]
          exact hs.1
        · rcases r with ⟨status, stx⟩ | m
          · show (Dash.sendRequestSettle s rid ts _ lat).chartData.length ≤ 200
            rw [Dash.sendRequestSettle_chartData_response]
            exact sliceLast_length_le _ _
          · show (Dash.sendRequestSettle s rid ts _ lat).chartData.length ≤ 200
            rw [Dash.sendRequestSettle_chartData_exception]
            exact hs.2
  · intro events
    refine PostApp.postRun_preserve (P := fun s => s.logs.length ≤ 50)
      ?_ events PostApp.initialState (by simp [PostApp.initialState])
    intro s e hs
    obtain ⟨entry, hlogs⟩ := PostApp.sendRequest_logs_shape s e.result
      e.latency e.catchLatency e.timestamp
    rw [hlogs]
    exact sliceLast_length_le _ _
  · intro α xs a n
    refine ⟨?_, sliceLast_suffix _ _⟩
    rw [sliceLast_length]
    simp

/-! ### Digit-format lemmas for the derived metrics -/

theorem isDigit_char_ofNat {d : Nat} (h : d < 10) :
    (Char.ofNat (48 + d)).isDigit = true := by
  interval_cases d <;> decide

theorem toFixed2_format (q : ℚ) : hasTwoDecimals (toFixed2 q) := by
  refine ⟨toString ((⌊q * 100 + 1 / 2⌋).toNat / 100),
    Char.ofNat (48 + (⌊q * 100 + 1 / 2⌋).toNat / 10 % 10),
    Char.ofNat (48 + (⌊q * 100 + 1 / 2⌋).toNat % 10), rfl, ?_, ?_⟩
  · exact isDigit_char_ofNat (Nat.mod_lt _ (by norm_num))
  · exact isDigit_char_ofNat (Nat.mod_lt _ (by norm_num))

theorem hasTwoDecimals_zero : hasTwoDecimals "0.00" :=
  ⟨"0", '0', '0', by decide, by decide, by decide⟩

namespace Dash

/-! ### Classification lemmas -/

theorem classify_exception (msg : Option String) :
    classify (.exception msg) = .error := rfl

theorem successInd_exception (msg : Option String) :
    successInd (.exception msg) = 0 := rfl

theorem classify_response_of_not_ok {status : Nat} (stx : String)
    (h : resOk status = false) :
    classify (.response status stx) = .error := by
  simp [classify, h]

theorem successInd_response_of_not_ok {status : Nat} (stx : String)
    (h : resOk status = false) :
    successInd (.response status stx) = 0 := by
  simp [successInd, classify, h]

theorem settleLog_statusCode_response {rid : Nat} {l : Log} (status : Nat)
    (stx : String) (lat : Nat) (h : l.id = rid) :
    (settleLog rid (.response status stx) lat l).statusCode = some status := by
  simp only [settleLog, h, if_true]
  split <;> rfl

theorem settleLog_exception {rid : Nat} {l : Log} (msg : Option String)
    (lat : Nat) (h : l.id = rid) :
    settleLog rid (.exception msg) lat l =
      { l with
        status := .error
        statusCode := some 0
        message := msg.getD "Network Error"
        latency := some lat } := by
  simp [settleLog, h]

end Dash

/-! ### Exact binary64 rounding lemmas -/

theorem roundTiesEven_of_floor_of_lt {x : ℚ} {f : ℤ} (hf : ⌊x⌋ = f)
    (h : x - (f : ℚ) < 1 / 2) : roundTiesEven x = f := by
  unfold roundTiesEven
  rw [hf, if_pos h]

theorem roundTiesEven_abs (x : ℚ) : |(roundTiesEven x : ℚ) - x| ≤ 1 / 2 := by
  have h0 : (⌊x⌋ : ℚ) ≤ x := Int.floor_le x
  have h1 : x < ⌊x⌋ + 1 := Int.lt_floor_add_one x
  unfold roundTiesEven
  split
  · rename_i h
    rw [abs_le]
    constructor <;> linarith
  · split
    · rename_i h h'
      rw [abs_le]
      constructor <;> push_cast <;> linarith
    · rename_i h h'
      split <;> (rw [abs_le]; constructor <;> push_cast <;> linarith)

theorem int_log_two_of_bounds {q : ℚ} {e : ℤ} (h1 : (2 : ℚ) ^ e ≤ q)
    (h2 : q < (2 : ℚ) ^ (e + 1)) : Int.log 2 q = e := by
  have h2pos : (0 : ℚ) < 2 := by norm_num
  have hq : 0 < q := lt_of_lt_of_le (zpow_pos h2pos e) h1
  have hup : q < (2 : ℚ) ^ (Int.log 2 q + 1) :=
    Int.lt_zpow_succ_log_self (by norm_num) q
  have hlow : (2 : ℚ) ^ Int.log 2 q ≤ q :=
    Int.zpow_log_le_self (by norm_num) hq
  have hA : e < Int.log 2 q + 1 :=
    (zpow_lt_zpow_iff_right₀ (by norm_num : (1 : ℚ) < 2)).1
      (lt_of_le_of_lt h1 hup)
  have hB : Int.log 2 q < e + 1 :=
    (zpow_lt_zpow_iff_right₀ (by norm_num : (1 : ℚ) < 2)).1
      (lt_of_le_of_lt hlow h2)
  omega

theorem roundFloat_eval (q : ℚ) (e m : ℤ) (h1 : (2 : ℚ) ^ e ≤ q)
    (h2 : q < (2 : ℚ) ^ (e + 1))
    (hm : roundTiesEven (q * 2 ^ ((52 : ℤ) - e)) = m) :
    roundFloat q = (m : ℚ) * 2 ^ (e - (52 : ℤ)) := by
  have hq : 0 < q := lt_of_lt_of_le (zpow_pos (by norm_num) e) h1
  unfold roundFloat
  rw [if_neg (not_le.2 hq), int_log_two_of_bounds h1 h2, hm]

/-- Correct rounding is accurate to half an ulp: the double nearest to a
positive rational is within a relative error of `2 ^ (-53)` of it. -/
theorem roundFloat_close (q : ℚ) (hq : 0 < q) :
    |roundFloat q - q| ≤ q * 2 ^ (-(53 : ℤ)) := by
  have h2pos : (0 : ℚ) < 2 := by norm_num
  have hlow : (2 : ℚ) ^ Int.log 2 q ≤ q :=
    Int.zpow_log_le_self (by norm_num) hq
  unfold roundFloat
  rw [if_neg (not_le.2 hq)]
  set e := Int.log 2 q with he
  set x := q * 2 ^ ((52 : ℤ) - e) with hx
  have hqx : q = x * 2 ^ (e - (52 : ℤ)) := by
    rw [hx, mul_assoc, ← zpow_add₀ (by norm_num : (2 : ℚ) ≠ 0)]
    norm_num
  have key : (roundTiesEven x : ℚ) * 2 ^ (e - (52 : ℤ)) - q =
      ((roundTiesEven x : ℚ) - x) * 2 ^ (e - (52 : ℤ)) := by
    rw [sub_mul, ← hqx]
  have hfac : (1 / 2 : ℚ) * 2 ^ (e - (52 : ℤ)) =
      (2 : ℚ) ^ e * 2 ^ (-(53 : ℤ)) := by
    rw [show (1 : ℚ) / 2 = (2 : ℚ) ^ (-(1 : ℤ)) by norm_num,
      ← zpow_add₀ (by norm_num : (2 : ℚ) ≠ 0),
      ← zpow_add₀ (by norm_num : (2 : ℚ) ≠ 0)]
    congr 1
    ring
  rw [key, abs_mul, abs_of_pos (zpow_pos h2pos _)]
  calc |(roundTiesEven x : ℚ) - x| * 2 ^ (e - (52 : ℤ))
      ≤ (1 / 2) * 2 ^ (e - (52 : ℤ)) :=
        mul_le_mul_of_nonneg_right (roundTiesEven_abs x)
          (le_of_lt (zpow_pos h2pos _))
    _ = (2 : ℚ) ^ e * 2 ^ (-(53 : ℤ)) := hfac
    _ ≤ q * 2 ^ (-(53 : ℤ)) :=
        mul_le_mul_of_nonneg_right hlow (le_of_lt (zpow_pos h2pos _))

/-- **C4, counterexample**: the program computes the metrics in binary64,
not in exact arithmetic, and the results differ: at `error = 23`,
`total = 160` the rendered error rate is `"14.37"` (the double products
fall just below `14.375`), while the exact formula
`error / total * 100` under `toFixed(2)` gives `"14.38"`. -/
theorem exact_formula_counterexample :
    Dash.errorRate
      { total := 160, success := 137, error := 23, totalLatency := 0 } =
        "14.37" ∧
    toFixed2 ((23 : ℚ) / 160 * 100) = "14.38" ∧
    Dash.errorRate
      { total := 160, success := 137, error := 23, totalLatency := 0 } ≠
      toFixed2 ((23 : ℚ) / 160 * 100) := by
  have hv1 := roundFloat_eval ((23 : ℚ) / 160) (-3) 5179139571476070
    (by norm_num) (by norm_num)
    (by
      apply roundTiesEven_of_floor_of_lt
      · rw [Int.floor_eq_iff]
        constructor <;> norm_num
      · norm_num)
  have hv2 := roundFloat_eval
    (((5179139571476070 : ℤ) : ℚ) * 2 ^ ((-3 : ℤ) - 52) * 100) 3
    8092405580431359 (by norm_num) (by norm_num)
    (by
      apply roundTiesEven_of_floor_of_lt
      · rw [Int.floor_eq_iff]
        constructor <;> norm_num
      · norm_num)
  have hfl : (⌊((8092405580431359 : ℤ) : ℚ) * 2 ^ ((3 : ℤ) - 52) * 100 +
      1 / 2⌋ : ℤ) = 1437 := by
    rw [Int.floor_eq_iff]
    constructor <;> norm_num
  have hfl2 : (⌊(23 : ℚ) / 160 * 100 * 100 + 1 / 2⌋ : ℤ) = 1438 := by
    rw [Int.floor_eq_iff]
    constructor <;> norm_num
  have h1 : Dash.errorRate
      { total := 160, success := 137, error := 23, totalLatency := 0 } =
        "14.37" := by
    have hpos : ({ total := 160, success := 137, error := 23, totalLatency := 0 } : Dash.Stat).total > 0 := by
      norm_num
    have hdiv : ((({ total := 160, success := 137, error := 23, totalLatency := 0 } : Dash.Stat).error : ℚ)) /
        (({ total := 160, success := 137, error := 23, totalLatency := 0 } : Dash.Stat).total : ℚ) =
          (23 : ℚ) / 160 := by
      norm_num
    unfold Dash.errorRate
    rw [if_pos hpos, hdiv, hv1, hv2]
    simp only [toFixed2, hfl]
    rfl
  have h2 : toFixed2 ((23 : ℚ) / 160 * 100) = "14.38" := by
    simp only [toFixed2, hfl2]
    rfl
  refine ⟨h1, h2, ?_⟩
  rw [h1, h2]
  decide

/-- **C4** (amended): both variants' derived metrics are `"0.00"` when
`total = 0`; otherwise they are the formulas `error / total * 100` and
`totalLatency / total` with each division and multiplication evaluated in
IEEE-754 binary64 (correctly rounded, each rounding within half an ulp,
i.e. relative error at most `2 ^ (-53)`, of the exact value), then
formatted by `toFixed(2)`; in every case the resulting string shows exactly
two decimal places. -/
theorem derived_metrics (st : Dash.Stat) (stP : PostApp.Stat) :
    (st.total = 0 → Dash.errorRate st = "0.00" ∧ Dash.avgLatency st = "0.00") ∧
    (st.total ≠ 0 →
      Dash.errorRate st =
        toFixed2 (roundFloat
          (roundFloat ((st.error : ℚ) / (st.total : ℚ)) * 100)) ∧
      Dash.avgLatency st =
        toFixed2 (roundFloat ((st.totalLatency : ℚ) / (st.total : ℚ)))) ∧
    (stP.total = 0 → PostApp.errorRate stP = "0.00") ∧
    (stP.total ≠ 0 →
      PostApp.errorRate stP =
        toFixed2 (roundFloat
          (roundFloat ((stP.error : ℚ) / (stP.total : ℚ)) * 100))) ∧
    hasTwoDecimals (Dash.errorRate st) ∧
    hasTwoDecimals (Dash.avgLatency st) ∧
    hasTwoDecimals (PostApp.errorRate stP) ∧
    (∀ q : ℚ, 0 < q → |roundFloat q - q| ≤ q * 2 ^ (-(53 : ℤ))) := by
  refine ⟨?_, ?_, ?_, ?_, ?_, ?_, ?_, fun q hq => roundFloat_close q hq⟩
  · intro h
    constructor <;> simp [Dash.errorRate, Dash.avgLatency, h]
  · intro h
    constructor <;>
      simp [Dash.errorRate, Dash.avgLatency, Nat.pos_of_ne_zero h]
  · intro h
    simp [PostApp.errorRate, h]
  · intro h
    simp [PostApp.errorRate, Nat.pos_of_ne_zero h]
  · unfold Dash.errorRate
    split
    · exact toFixed2_format _
    · exact hasTwoDecimals_zero
  · unfold Dash.avgLatency
    split
    · exact toFixed2_format _
    · exact hasTwoDecimals_zero
  · unfold PostApp.errorRate
    split
    · exact toFixed2_format _
    · exact hasTwoDecimals_zero

theorem derived_metrics_witness :
    Dash.errorRate { total := 0, success := 0, error := 0, totalLatency := 0 }
        = "0.00" ∧
    Dash.errorRate
        { total := 160, success := 137, error := 23, totalLatency := 0 } =
      toFixed2 (roundFloat (roundFloat ((23 : ℚ) / 160) * 100)) ∧
    PostApp.errorRate { total := 2, success := 1, error := 1 } =
      toFixed2 (roundFloat (roundFloat ((1 : ℚ) / 2) * 100)) ∧
    |roundFloat ((3 : ℚ) / 2) - 3 / 2| ≤ (3 : ℚ) / 2 * 2 ^ (-(53 : ℤ)) := by
  refine ⟨?_, ?_, ?_, ?_⟩
  · exact ((derived_metrics
      { total := 0, success := 0, error := 0, totalLatency := 0 }
      { total := 0, success := 0, error := 0 }).1 rfl).1
  · exact ((derived_metrics
      { total := 160, success := 137, error := 23, totalLatency := 0 }
      { total := 0, success := 0, error := 0 }).2.1 (by decide)).1
  · exact (derived_metrics
      { total := 0, success := 0, error := 0, totalLatency := 0 }
      { total := 2, success := 1, error := 1 }).2.2.2.1 (by decide)
  · exact (derived_metrics
      { total := 0, success := 0, error := 0, totalLatency := 0 }
      { total := 0, success := 0, error := 0 }).2.2.2.2.2.2.2
      ((3 : ℚ) / 2) (by norm_num)

/-- **C5**: a settlement whose HTTP response has a non-ok status is a
terminal error even though no exception occurred: `total` and `error` each
gain one, `success` is unchanged, and any matching log entry (same id) is
settled with status `error`, the response's status code and the measured
latency.  In particular 500 is outside the ok range. -/
theorem http_error_counted (s : Dash.AppState) (rid : Nat) (ts stx : String)
    (status lat : Nat) (h : resOk status = false) :
    (Dash.sendRequestSettle s rid ts (.response status stx) lat).stats.total =
      s.stats.total + 1 ∧
    (Dash.sendRequestSettle s rid ts (.response status stx) lat).stats.error =
      s.stats.error + 1 ∧
    (Dash.sendRequestSettle s rid ts (.response status stx) lat).stats.success
      = s.stats.success ∧
    resOk 500 = false ∧
    ∀ l ∈ s.logs, l.id = rid →
      Dash.settleLog rid (.response status stx) lat l ∈
        (Dash.sendRequestSettle s rid ts (.response status stx) lat).logs ∧
      (Dash.settleLog rid (.response status stx) lat l).status =
        Dash.LogStatus.error ∧
      (Dash.settleLog rid (.response status stx) lat l).statusCode =
        some status ∧
      (Dash.settleLog rid (.response status stx) lat l).latency = some lat := by
  have hstats := Dash.sendRequestSettle_stats s rid ts (.response status stx) lat
  refine ⟨?_, ?_, ?_, by decide, ?_⟩
  · rw [hstats, Dash.bumpStats_total]
  · rw [hstats, Dash.bumpStats_error, Dash.successInd_response_of_not_ok stx h]
  · rw [hstats, Dash.bumpStats_success,
      Dash.successInd_response_of_not_ok stx h]
    exact Nat.add_zero _
  · intro l hl hid
    refine ⟨?_, ?_, ?_, ?_⟩
    · rw [Dash.sendRequestSettle_logs]
      exact List.mem_map_of_mem _ hl
    · rw [Dash.settleLog_status _ _ hid, Dash.classify_response_of_not_ok stx h]
    · exact Dash.settleLog_statusCode_response status stx lat hid
    · exact Dash.settleLog_latency _ _ hid

theorem http_error_counted_witness :
    resOk 500 = false ∧
    (Dash.sendRequestSettle (Dash.sendRequestDispatch Dash.initialState "t" 0)
        0 "t" (.response 500 "Internal Server Error") 7).stats.error = 1 ∧
    (Dash.sendRequestSettle (Dash.sendRequestDispatch Dash.initialState "t" 0)
        0 "t" (.response 500 "Internal Server Error") 7).stats.success = 0 ∧
    (Dash.settleLog 0 (.response 500 "Internal Server Error") 7
        (Dash.pendingLog 0 "t" 0)).statusCode = some 500 := by
  have H := http_error_counted (Dash.sendRequestDispatch Dash.initialState "t" 0)
    0 "t" "Internal Server Error" 500 7 (by decide)
  refine ⟨H.2.2.2.1, ?_, ?_, ?_⟩
  · have h2 := H.2.1
    simpa using h2
  · have h3 := H.2.2.1
    simpa using h3
  · exact (H.2.2.2.2 (Dash.pendingLog 0 "t" 0) (by decide) rfl).2.2.1

/-- **C6**: a settlement caused by a thrown or rejected fetch is always a
terminal error: `total` and `error` each gain one, `success` is unchanged,
any matching log entry is settled with status `error`, status code 0, the
measured latency, and a message equal to the exception's description (or
`"Network Error"` when the exception carries none); and the run simply
continues with the remaining events. -/
theorem transport_error_contained (s : Dash.AppState) (rid : Nat)
    (ts : String) (msg : Option String) (lat : Nat) (rest : List Dash.Step) :
    (Dash.sendRequestSettle s rid ts (.exception msg) lat).stats.total =
      s.stats.total + 1 ∧
    (Dash.sendRequestSettle s rid ts (.exception msg) lat).stats.error =
      s.stats.error + 1 ∧
    (Dash.sendRequestSettle s rid ts (.exception msg) lat).stats.success =
      s.stats.success ∧
    (∀ l ∈ s.logs, l.id = rid →
      Dash.settleLog rid (.exception msg) lat l ∈
        (Dash.sendRequestSettle s rid ts (.exception msg) lat).logs ∧
      (Dash.settleLog rid (.exception msg) lat l).status =
        Dash.LogStatus.error ∧
      (Dash.settleLog rid (.exception msg) lat l).statusCode = some 0 ∧
      (Dash.settleLog rid (.exception msg) lat l).latency = some lat ∧
      (∀ m, msg = some m →
        (Dash.settleLog rid (.exception msg) lat l).message = m) ∧
      (msg = none →
        (Dash.settleLog rid (.exception msg) lat l).message =
          "Network Error")) ∧
    Dash.run s (Dash.Step.settle rid ts (.exception msg) lat :: rest) =
      Dash.run (Dash.sendRequestSettle s rid ts (.exception msg) lat) rest := by
  have hstats := Dash.sendRequestSettle_stats s rid ts (.exception msg) lat
  refine ⟨?_, ?_, ?_, ?_, rfl⟩
  · rw [hstats, Dash.bumpStats_total]
  · rw [hstats, Dash.bumpStats_error, Dash.successInd_exception]
  · rw [hstats, Dash.bumpStats_success, Dash.successInd_exception]
    exact Nat.add_zero _
  · intro l hl hid
    rw [Dash.settleLog_exception msg lat hid]
    refine ⟨?_, rfl, rfl, rfl, ?_, ?_⟩
    · rw [Dash.sendRequestSettle_logs]
      have := List.mem_map_of_mem (Dash.settleLog rid (.exception msg) lat) hl
      rwa [Dash.settleLog_exception msg lat hid] at this
    · intro m hm
      rw [hm]
      rfl
    · intro hm
      rw [hm]
      rfl

theorem transport_error_contained_witness :
    (Dash.sendRequestSettle (Dash.sendRequestDispatch Dash.initialState "t" 0)
        0 "t" (.exception (some "connection refused")) 7).stats.error = 1 ∧
    (Dash.settleLog 0 (.exception (some "connection refused")) 7
        (Dash.pendingLog 0 "t" 0)).message = "connection refused" ∧
    (Dash.settleLog 0 (.exception none) 7
        (Dash.pendingLog 0 "t" 0)).statusCode = some 0 := by
  have H := transport_error_contained
    (Dash.sendRequestDispatch Dash.initialState "t" 0) 0 "t"
    (some "connection refused") 7 []
  have H0 := transport_error_contained
    (Dash.sendRequestDispatch Dash.initialState "t" 0) 0 "t" none 7 []
  refine ⟨by simpa using H.2.1, ?_, ?_⟩
  · exact (H.2.2.2.1 (Dash.pendingLog 0 "t" 0) (by decide) rfl).2.2.2.2.1
      "connection refused" rfl
  · exact (H0.2.2.2.1 (Dash.pendingLog 0 "t" 0) (by decide) rfl).2.2.1

/-- **C7, counterexample**: a request that settles through the `catch`
branch (transport failure) gets no chart point: starting from one dispatched
request, an exception settlement leaves the chart empty even though the
request reached a terminal error state and was counted. -/
theorem chart_point_missing_on_exception :
    (Dash.sendRequestSettle (Dash.sendRequestDispatch Dash.initialState "t" 0)
        0 "t" (.exception none) 5).stats.total = 1 ∧
    (Dash.sendRequestSettle (Dash.sendRequestDispatch Dash.initialState "t" 0)
        0 "t" (.exception none) 5).logs.map Dash.Log.status =
      [Dash.LogStatus.error] ∧
    (Dash.sendRequestSettle (Dash.sendRequestDispatch Dash.initialState "t" 0)
        0 "t" (.exception none) 5).chartData = [] := by
  refine ⟨by decide, by decide, by decide⟩

/-- **C7, amended**: a chart point carrying the request's latency is
appended exactly when the request settles with an HTTP response (ok or not);
a settlement through the `catch` branch (transport failure) appends no chart
point, and a dispatch (pending request) never touches the chart. -/
theorem chart_point_on_response_only (s : Dash.AppState) (rid : Nat)
    (ts stx ts' : String) (status lat startT : Nat) (msg : Option String) :
    (Dash.sendRequestSettle s rid ts (.response status stx) lat).chartData =
      sliceLast 200 (s.chartData ++ [{ time := ts, latency := lat }]) ∧
    (Dash.sendRequestSettle s rid ts (.exception msg) lat).chartData =
      s.chartData ∧
    (Dash.sendRequestDispatch s ts' startT).chartData = s.chartData :=
  ⟨rfl, rfl, rfl⟩

/-- **C8**: while the scheduler is running, a click on Reset and an edit of
the interval input leave the state unchanged: both controls carry
`disabled={isRunning}`, so the events are blocked at the interface. -/
theorem reset_and_interval_blocked_while_running (s : Dash.AppState)
    (parsed : Option Nat) (h : s.isRunning = true) :
    Dash.resetClick s = s ∧ Dash.intervalInput s parsed = s := by
  constructor <;> simp [Dash.resetClick, Dash.intervalInput, h]

theorem reset_and_interval_blocked_while_running_witness :
    Dash.resetClick { Dash.initialState with isRunning := true } =
      { Dash.initialState with isRunning := true } ∧
    Dash.intervalInput { Dash.initialState with isRunning := true }
        (some 50) =
      { Dash.initialState with isRunning := true } :=
  reset_and_interval_blocked_while_running
    { Dash.initialState with isRunning := true } (some 50) rfl

/-- **C10**: in the simpler variant, an ok-status response whose body fails
to parse as JSON jumps to the `catch` block before any success bookkeeping:
`total` and `error` each gain one, `success` is unchanged, and the appended
log entry is an error whose message comes from the parse exception (or the
generic fallback) with the latency re-measured in the `catch` block. -/
theorem ok_response_bad_json_is_error (s : PostApp.AppState) (status : Nat)
    (stx ts : String) (e : Option String) (lat latC : Nat)
    (h : resOk status = true) :
    (PostApp.sendRequest s (.response status stx (.error e)) lat latC
        ts).stats.total = s.stats.total + 1 ∧
    (PostApp.sendRequest s (.response status stx (.error e)) lat latC
        ts).stats.error = s.stats.error + 1 ∧
    (PostApp.sendRequest s (.response status stx (.error e)) lat latC
        ts).stats.success = s.stats.success ∧
    (PostApp.sendRequest s (.response status stx (.error e)) lat latC
        ts).logs.getLast? =
      some { id := s.nextId
             timestamp := ts
             status := .error
             message := e.getD "Network Error"
             latency := latC } := by
  have hred : PostApp.sendRequest s (.response status stx (.error e)) lat latC
      ts =
    PostApp.addLog
      { s with
        stats :=
          { s.stats with
            total := s.stats.total + 1
            error := s.stats.error + 1 } }
      ts .error (e.getD "Network Error") latC := by
    simp [PostApp.sendRequest, h]
  rw [hred]
  refine ⟨rfl, rfl, rfl, ?_⟩
  exact sliceLast_concat_getLast? (by norm_num) _ _

theorem ok_response_bad_json_is_error_witness :
    (PostApp.sendRequest PostApp.initialState
        (.response 200 "OK" (.error (some "Unexpected token"))) 3 4
        "t").stats.error = 1 ∧
    (PostApp.sendRequest PostApp.initialState
        (.response 200 "OK" (.error (some "Unexpected token"))) 3 4
        "t").stats.success = 0 ∧
    (PostApp.sendRequest PostApp.initialState
        (.response 200 "OK" (.error (some "Unexpected token"))) 3 4
        "t").logs.getLast? =
      some { id := 0
             timestamp := "t"
             status := .error
             message := "Unexpected token"
             latency := 4 } := by
  have H := ok_response_bad_json_is_error PostApp.initialState 200 "OK" "t"
    (some "Unexpected token") 3 4 (by decide)
  exact ⟨by simpa using H.2.1, by simpa using H.2.2.1, by simpa using H.2.2.2⟩

namespace Dash

theorem pendingLog_id (rid : Nat) (ts : String) (startT : Nat) :
    (pendingLog rid ts startT).id = rid := rfl

theorem pendingLog_status (rid : Nat) (ts : String) (startT : Nat) :
    (pendingLog rid ts startT).status = LogStatus.pending := rfl

/-- Settlement rewrites entries in place: the multiset of ids (indeed the
id sequence itself) is unchanged. -/
theorem sendRequestSettle_ids (s : AppState) (rid : Nat) (ts : String)
    (r : FetchResult) (lat : Nat) :
    (sendRequestSettle s rid ts r lat).logs.map Log.id =
      s.logs.map Log.id := by
  rw [sendRequestSettle_logs, List.map_map]
  exact List.map_congr_left fun l _ => settleLog_id rid r lat l

/-- The id-freshness invariant: ids in the log are pairwise distinct and all
below the fresh-id counter. -/
def idInv (s : AppState) : Prop :=
  (s.logs.map Log.id).Nodup ∧ ∀ l ∈ s.logs, l.id < s.nextId

theorem idInv_dispatch (s : AppState) (ts : String) (startT : Nat)
    (h : idInv s) : idInv (sendRequestDispatch s ts startT) := by
  obtain ⟨h1, h2⟩ := h
  have hfresh : s.nextId ∉ s.logs.map Log.id := by
    intro hmem
    obtain ⟨l, hl, hid⟩ := List.mem_map.1 hmem
    exact absurd hid (Nat.ne_of_lt (h2 l hl))
  constructor
  · have hsub : (sendRequestDispatch s ts startT).logs.Sublist
        (s.logs ++ [pendingLog s.nextId ts startT]) :=
      (sliceLast_suffix _ _).sublist
    have hall : ((s.logs ++ [pendingLog s.nextId ts startT]).map
        Log.id).Nodup := by
      rw [List.map_append]
      rw [List.nodup_append]
      refine ⟨h1, by simp, ?_⟩
      intro a ha hb
      simp only [List.map_cons, List.map_nil, List.mem_singleton,
        pendingLog_id] at hb
      rw [hb] at ha
      exact hfresh ha
    exact hall.sublist (hsub.map _)
  · intro l hl
    have hl' : l ∈ s.logs ++ [pendingLog s.nextId ts startT] :=
      (sliceLast_suffix _ _).subset hl
    rcases List.mem_append.1 hl' with hmem | hmem
    · exact Nat.lt_succ_of_lt (h2 l hmem)
    · simp only [List.mem_singleton] at hmem
      rw [hmem]
      exact Nat.lt_succ_self _

theorem idInv_settle (s : AppState) (rid : Nat) (ts : String)
    (r : FetchResult) (lat : Nat) (h : idInv s) :
    idInv (sendRequestSettle s rid ts r lat) := by
  obtain ⟨h1, h2⟩ := h
  constructor
  · rw [sendRequestSettle_ids]
    exact h1
  · intro l hl
    rw [sendRequestSettle_logs] at hl
    obtain ⟨l0, hl0, rfl⟩ := List.mem_map.1 hl
    rw [sendRequestSettle_nextId, settleLog_id]
    exact h2 l0 hl0

theorem idInv_run (steps : List Step) : idInv (run initialState steps) := by
  refine run_preserve (P := idInv) ?_ steps initialState ⟨by decide, by decide⟩
  intro s e hs
  cases e with
  | dispatch ts startT => exact idInv_dispatch s ts startT hs
  | settle rid ts r lat => exact idInv_settle s rid ts r lat hs

end Dash

/-- **C9**: in the richer variant, along every run the log never holds two
entries with the same id and every id is below the fresh-id counter; a
dispatch appends (as newest entry) a `pending` entry carrying the fresh id,
which does not occur anywhere in the log before the dispatch; and a
settlement for id `rid` rewrites exactly the entries with that id to the
terminal classification (never back to `pending`) while every other entry
is left untouched. -/
theorem pending_entry_lifecycle :
    (∀ steps : List Dash.Step,
      ((Dash.run Dash.initialState steps).logs.map Dash.Log.id).Nodup ∧
      ∀ l ∈ (Dash.run Dash.initialState steps).logs,
        l.id < (Dash.run Dash.initialState steps).nextId) ∧
    (∀ (steps : List Dash.Step) (ts : String) (startT : Nat),
      (Dash.sendRequestDispatch (Dash.run Dash.initialState steps) ts
          startT).logs.getLast? =
        some (Dash.pendingLog (Dash.run Dash.initialState steps).nextId ts
          startT) ∧
      (Dash.pendingLog (Dash.run Dash.initialState steps).nextId ts
          startT).status = Dash.LogStatus.pending ∧
      (Dash.run Dash.initialState steps).nextId ∉
        (Dash.run Dash.initialState steps).logs.map Dash.Log.id) ∧
    (∀ (rid lat : Nat) (r : Dash.FetchResult) (l : Dash.Log),
      (l.id = rid →
        (Dash.settleLog rid r lat l).status = Dash.classify r ∧
        Dash.classify r ≠ Dash.LogStatus.pending) ∧
      (l.id ≠ rid → Dash.settleLog rid r lat l = l)) := by
  refine ⟨Dash.idInv_run, ?_, ?_⟩
  · intro steps ts startT
    have hinv := Dash.idInv_run steps
    refine ⟨?_, rfl, ?_⟩
    · exact sliceLast_concat_getLast? (by norm_num) _ _
    · intro hmem
      obtain ⟨l, hl, hid⟩ := List.mem_map.1 hmem
      exact absurd hid (Nat.ne_of_lt (hinv.2 l hl))
  · intro rid lat r l
    constructor
    · intro hid
      exact ⟨Dash.settleLog_status r lat hid, Dash.classify_ne_pending r⟩
    · intro hid
      exact Dash.settleLog_of_ne r lat hid

theorem pending_entry_lifecycle_witness :
    ((Dash.run Dash.initialState
        [Dash.Step.dispatch "a" 1, Dash.Step.dispatch "b" 2]).logs.map
      Dash.Log.id).Nodup ∧
    (Dash.sendRequestDispatch (Dash.run Dash.initialState []) "t"
        0).logs.getLast? = some (Dash.pendingLog 0 "t" 0) ∧
    (Dash.settleLog 5 (.exception none) 3
        (Dash.pendingLog 5 "t" 0)).status =
      Dash.classify (.exception none) ∧
    Dash.settleLog 9 (.exception none) 3 (Dash.pendingLog 5 "t" 0) =
      Dash.pendingLog 5 "t" 0 := by
  refine ⟨(pending_entry_lifecycle.1
    [Dash.Step.dispatch "a" 1, Dash.Step.dispatch "b" 2]).1, ?_, ?_, ?_⟩
  · have h := (pending_entry_lifecycle.2.1 [] "t" 0).1
    simpa using h
  · exact ((pending_entry_lifecycle.2.2 5 3 (.exception none)
      (Dash.pendingLog 5 "t" 0)).1 rfl).1
  · exact (pending_entry_lifecycle.2.2 9 3 (.exception none)
      (Dash.pendingLog 5 "t" 0)).2 (by decide)

/-- **C2**: three requests dispatched in order 0, 1, 2 whose settlements
arrive in any permutation of the dispatch order: the log still lists the
three entries in dispatch order, each settled with its own outcome (a
terminal state, never `pending`) and its own latency; the counters reflect
exactly the three settlements — `total = 3`, `success` counts exactly the
ok responses, `total = success + error`, and the latency accumulator is the
sum of the three latencies — independently of the settlement order. -/
theorem out_of_order_settlements (ts : Nat → String) (startT : Nat → Nat)
    (r : Nat → Dash.FetchResult) (lat : Nat → Nat) (order : List Nat)
    (hperm : order.Perm [0, 1, 2]) :
    (Dash.threeRun ts startT r lat order).logs =
      [Dash.settleLog 0 (r 0) (lat 0) (Dash.pendingLog 0 (ts 0) (startT 0)),
       Dash.settleLog 1 (r 1) (lat 1) (Dash.pendingLog 1 (ts 1) (startT 1)),
       Dash.settleLog 2 (r 2) (lat 2)
         (Dash.pendingLog 2 (ts 2) (startT 2))] ∧
    (∀ k : Nat,
      (Dash.settleLog k (r k) (lat k)
        (Dash.pendingLog k (ts k) (startT k))).status = Dash.classify (r k) ∧
      Dash.classify (r k) ≠ Dash.LogStatus.pending ∧
      (Dash.settleLog k (r k) (lat k)
        (Dash.pendingLog k (ts k) (startT k))).latency = some (lat k)) ∧
    (Dash.threeRun ts startT r lat order).stats.total = 3 ∧
    (Dash.threeRun ts startT r lat order).stats.success =
      Dash.successInd (r 0) + Dash.successInd (r 1) + Dash.successInd (r 2) ∧
    (Dash.threeRun ts startT r lat order).stats.total =
      (Dash.threeRun ts startT r lat order).stats.success +
        (Dash.threeRun ts startT r lat order).stats.error ∧
    (Dash.threeRun ts startT r lat order).stats.totalLatency =
      lat 0 + lat 1 + lat 2 := by
  have i0 := Dash.successInd_le_one (r 0)
  have i1 := Dash.successInd_le_one (r 1)
  have i2 := Dash.successInd_le_one (r 2)
  obtain ⟨a, b, c, rfl⟩ : ∃ a b c, order = [a, b, c] := by
    rcases order with _ | ⟨a, _ | ⟨b, _ | ⟨c, _ | ⟨d, t⟩⟩⟩⟩
    · exfalso
      have h := hperm.length_eq
      simp only [List.length_cons, List.length_nil] at h
      omega
    · exfalso
      have h := hperm.length_eq
      simp only [List.length_cons, List.length_nil] at h
      omega
    · exfalso
      have h := hperm.length_eq
      simp only [List.length_cons, List.length_nil] at h
      omega
    · exact ⟨a, b, c, rfl⟩
    · exfalso
      have h := hperm.length_eq
      simp only [List.length_cons, List.length_nil] at h
      omega
  have hrun : Dash.threeRun ts startT r lat [a, b, c] =
      Dash.sendRequestSettle (Dash.sendRequestSettle (Dash.sendRequestSettle
        { intervalMs := 1000, isRunning := false,
          stats := { total := 0, success := 0, error := 0, totalLatency := 0 },
          logs := [Dash.pendingLog 0 (ts 0) (startT 0),
                   Dash.pendingLog 1 (ts 1) (startT 1),
                   Dash.pendingLog 2 (ts 2) (startT 2)],
          chartData := [], nextId := 3 }
        a (ts a) (r a) (lat a)) b (ts b) (r b) (lat b)) c (ts c) (r c)
        (lat c) := rfl
  have ha : a = 0 ∨ a = 1 ∨ a = 2 := by
    have hm : a ∈ [a, b, c] := by simp
    simpa using hperm.subset hm
  have hb : b = 0 ∨ b = 1 ∨ b = 2 := by
    have hm : b ∈ [a, b, c] := by simp
    simpa using hperm.subset hm
  have hc : c = 0 ∨ c = 1 ∨ c = 2 := by
    have hm : c ∈ [a, b, c] := by simp
    simpa using hperm.subset hm
  rcases ha with rfl | rfl | rfl <;> rcases hb with rfl | rfl | rfl <;>
    rcases hc with rfl | rfl | rfl <;>
      first
        | exact absurd hperm (by decide)
        | (refine ⟨?_, fun k => ⟨Dash.settleLog_status _ _ rfl,
              Dash.classify_ne_pending _, Dash.settleLog_latency _ _ rfl⟩,
              ?_, ?_, ?_, ?_⟩ <;>
            (rw [hrun]
             simp [Dash.sendRequestSettle_logs, Dash.sendRequestSettle_stats,
               Dash.bumpStats_total, Dash.bumpStats_success,
               Dash.bumpStats_error, Dash.bumpStats_totalLatency,
               Dash.settleLog_id, Dash.pendingLog_id, Dash.settleLog_of_ne]
             try omega))

theorem out_of_order_settlements_witness :
    (Dash.threeRun (fun k => toString k) (fun k => k)
        (fun k => if k = 1 then Dash.FetchResult.exception none
          else Dash.FetchResult.response 200 "OK")
        (fun k => 10 * k) [1, 0, 2]).stats.total = 3 ∧
    (Dash.threeRun (fun k => toString k) (fun k => k)
        (fun k => if k = 1 then Dash.FetchResult.exception none
          else Dash.FetchResult.response 200 "OK")
        (fun k => 10 * k) [1, 0, 2]).stats.success +
      (Dash.threeRun (fun k => toString k) (fun k => k)
        (fun k => if k = 1 then Dash.FetchResult.exception none
          else Dash.FetchResult.response 200 "OK")
        (fun k => 10 * k) [1, 0, 2]).stats.error = 3 := by
  have H := out_of_order_settlements (fun k => toString k) (fun k => k)
    (fun k => if k = 1 then Dash.FetchResult.exception none
      else Dash.FetchResult.response 200 "OK")
    (fun k => 10 * k) [1, 0, 2] (by decide)
  have h1 := H.2.2.1
  have h2 := H.2.2.2.2.1
  exact ⟨h1, by omega⟩
